import Mathlib

/-!
Verification of the quacc calculation-execution core: the parameter merge
engine, the scoped scratch-directory execution wrapper (`run_calc`), and the
multi-stage VASP recipe pipelines (`StaticJob`, `RelaxJob`, `DoubleRelaxJob`,
`QMOFMaker` with its stage functions `prerelax`, `loose_relax_positions`,
`loose_relax_volume`, `double_relax`).

Modelling conventions:
- Python dicts are ordered association lists `List (String × Val)`; the
  explicit-absence marker (Python `None`) is `Val.none`.
- The external solver, the BFGSLineSearch optimizer and the k-point resolver
  inside the calculator are opaque: they are passed as function parameters.
- Side effects needed by the claims are made observable through explicit
  state (a filesystem record, an object store) and event traces.
-/

namespace Quacc

/-- A solver-directive value: Python ints, floats (written exactly as decimal
literals: `float m e` stands for `m * 10 ^ (-e)`, so `0.05` is `float 5 2`),
booleans, strings, the `auto_kpts` grid-density sub-dictionary, and the
explicit-absence marker `None`. -/
inductive Val where
  | int : Int → Val
  | float : Int → Nat → Val
  | bool : Bool → Val
  | str : String → Val
  | gridDensity : Nat → Val
  | none : Val
deriving DecidableEq

/-- Dictionary update `d[k] = v`: replace the value at the first occurrence of
`k` keeping its position (Python dicts keep first-insertion order), else
append `(k, v)` at the end. -/
def setEntry {κ α : Type} [DecidableEq κ] : List (κ × α) → κ → α → List (κ × α)
  | [], k, v => [(k, v)]
  | p :: rest, k, v => if p.1 = k then (k, v) :: rest else p :: setEntry rest k v

/-- Dictionary lookup `d.get(k)`: the value at the first occurrence of `k`. -/
def lookupEntry {κ α : Type} [DecidableEq κ] : List (κ × α) → κ → Option α
  | [], _ => Option.none
  | p :: rest, k => if p.1 = k then Option.some p.2 else lookupEntry rest k

/-- Dictionary deletion `del d[k]`: drop every entry whose key is `k`,
preserving the order of the remaining entries. -/
def eraseEntry {κ α : Type} [DecidableEq κ] : List (κ × α) → κ → List (κ × α)
  | [], _ => []
  | p :: rest, k => if p.1 = k then eraseEntry rest k else p :: eraseEntry rest k

/-- The `remove_none` policy: delete every entry whose resolved value is the
explicit-absence marker. -/
def dropNone : List (String × Val) → List (String × Val)
  | [] => []
  | p :: rest => if p.2 = Val.none then dropNone rest else p :: dropNone rest

/-- Fold the entries of `d2` into `d1` one dictionary update at a time:
`{**d1, **d2}`. Later entries strictly override earlier ones and the key
order of the result follows first-occurrence order across both layers. -/
def mergeTwo (d1 d2 : List (String × Val)) : List (String × Val) :=
  d2.foldl (fun acc p => setEntry acc p.1 p.2) d1

/-- Modelled from the spec: `quacc.util.basics.merge_dicts` is not under
`src/`. Per the spec's Parameter Merge Engine contract, the layers are merged
with later layers winning and first-occurrence key order, and when
`remove_none` is true any key whose final resolved value is the
explicit-absence marker is deleted from the result entirely. -/
def merge_dicts (d1 d2 : List (String × Val)) (remove_none : Bool) :
    List (String × Val) :=
  let d := mergeTwo d1 d2
  if remove_none then dropNone d else d

/-- The attached solver configuration: a preset identifier, the flat mapping
of solver directives, and the resolved reciprocal-space sampling grid
(`calc.kpts`). -/
structure Calc where
  preset : Option String
  flags : List (String × Val)
  kpts : List Nat
deriving DecidableEq

/-- Calculator directive update, `calc.set(k=v)`. -/
def Calc.setDirective (c : Calc) (k : String) (v : Val) : Calc :=
  { c with flags := setEntry c.flags k v }

/-- An atomistic structure: the positions/cell payload (abstract, identified
by a natural number) plus the optionally attached calculator (`atoms.calc`; `calc` is a Lean
keyword, so the field is named `calcObj`). -/
structure Atoms where
  payload : Nat
  calcObj : Option Calc
deriving DecidableEq

/-- The resolved sampling grid of the attached calculator (`atoms.calc.kpts`;
`[]` stands for the attribute error when no calculator is attached, which the
pipelines never hit because `SmartVasp` always attaches one). -/
def Atoms.kptsOf (a : Atoms) : List Nat :=
  match a.calcObj with
  | Option.some c => c.kpts
  | Option.none => []

/-- The directive mapping of the attached calculator. -/
def Atoms.flagsOf (a : Atoms) : List (String × Val) :=
  match a.calcObj with
  | Option.some c => c.flags
  | Option.none => []

/-- `calc.set` lifted to the structure carrying the calculator. -/
def Atoms.setDirective (a : Atoms) (k : String) (v : Val) : Atoms :=
  { a with calcObj := a.calcObj.map (fun c => c.setDirective k v) }

/-- How a structure and a preset and a directive mapping resolve to a
k-point sampling grid. This is internal to the external calculator, so it is
an opaque parameter of the pipeline model. -/
def Resolver : Type := Nat → Option String → List (String × Val) → List Nat

/-- Modelled from the spec: `quacc.calculators.vasp.SmartVasp` is not under
`src/`. Per the spec's solver attachment point, it attaches to the structure
a calculator object accepting the flat directive mapping plus the named
preset, with the sampling grid resolved opaquely (here by `resolve`). -/
def SmartVasp (resolve : Resolver) (a : Atoms) (preset : Option String)
    (flags : List (String × Val)) : Atoms :=
  { a with calcObj :=
      Option.some ⟨preset, flags, resolve a.payload preset flags⟩ }

/-- A persistable summary record of one run. -/
structure Summary where
  atoms : Atoms
  name : String
deriving DecidableEq

/-- Modelled from the spec: `quacc.schemas.vasp.summarize_run` is not under
`src/`. Per the spec it consumes the final structure plus an auxiliary field
map (at minimum a run name) and returns a persistable summary record; the
callers read the structure back out of it (`summary1["atoms"]`). -/
def summarize_run (a : Atoms) (name : String) : Summary :=
  { atoms := a, name := name }

/-- Observable pipeline events: entering a named stage function, triggering
the external solver through `run_calc` on a structure, or driving the
BFGSLineSearch optimizer on a structure. -/
inductive Ev where
  | enter : String → Ev
  | solveVasp : Atoms → Ev
  | solveBFGS : Atoms → Ev
deriving DecidableEq

/-- The successful path of `run_calc` as seen by the pipelines: the solver
trigger maps the structure to an updated copy (the scratch staging and error
paths of `run_calc` are modelled separately below as `run_calc_fs` and
`run_calc_heap`). The event records the structure, calculator included,
exactly as it is handed to the solver. -/
def runCalcT (solve : Atoms → Atoms) (a : Atoms) : Atoms × List Ev :=
  (solve a, [Ev.solveVasp a])

/-- The fixed defaults of `StaticJob.make` (`src/quacc/recipes/vasp/core.py`). -/
def staticDefaults : List (String × Val) :=
  [("ismear", Val.int (-5)), ("isym", Val.int 2), ("laechg", Val.bool true),
   ("lcharg", Val.bool true), ("lwave", Val.bool true), ("nedos", Val.int 5001),
   ("nsw", Val.int 0), ("sigma", Val.float 5 2)]

/-- The fixed defaults of `RelaxJob.make` (`src/quacc/recipes/vasp/core.py`):
`isif` is 3 for a volume relaxation and 2 for a positions-only relaxation. -/
def relaxDefaults (volume_relax : Bool) : List (String × Val) :=
  [("ediffg", Val.float (-2) 2), ("isif", Val.int (if volume_relax then 3 else 2)),
   ("ibrion", Val.int 2), ("ismear", Val.int 0), ("isym", Val.int 0),
   ("lcharg", Val.bool false), ("lwave", Val.bool false), ("nsw", Val.int 200),
   ("sigma", Val.float 5 2)]

/-- The fixed defaults shared by both stages of `DoubleRelaxJob.make`
(`src/quacc/recipes/vasp/core.py`). -/
def doubleRelaxDefaults (volume_relax : Bool) : List (String × Val) :=
  [("ediffg", Val.float (-2) 2), ("isif", Val.int (if volume_relax then 3 else 2)),
   ("ibrion", Val.int 2), ("ismear", Val.int 0), ("isym", Val.int 0),
   ("lcharg", Val.bool false), ("lwave", Val.bool true), ("nsw", Val.int 200),
   ("sigma", Val.float 5 2)]

/-- The `StaticJob` recipe descriptor (`src/quacc/recipes/vasp/core.py`). -/
structure StaticJob where
  name : String
  preset : Option String
  swaps : Option (List (String × Val))

/-- `StaticJob.make`: merge the fixed defaults with the user swaps
(`remove_none=True`), attach the calculator, run the calculation and
summarize it. -/
def StaticJob.make (resolve : Resolver) (solve : Atoms → Atoms) (j : StaticJob)
    (atoms : Atoms) : Summary × List Ev :=
  let swaps := j.swaps.getD []
  let flags := merge_dicts staticDefaults swaps true
  let a := SmartVasp resolve atoms j.preset flags
  let r := runCalcT solve a
  (summarize_run r.1 j.name, r.2)

/-- The `RelaxJob` recipe descriptor (`src/quacc/recipes/vasp/core.py`). -/
structure RelaxJob where
  name : String
  preset : Option String
  volume_relax : Bool
  swaps : Option (List (String × Val))

/-- `RelaxJob.make`: merge the fixed defaults with the user swaps
(`remove_none=True`), attach the calculator, run the calculation and
summarize it. -/
def RelaxJob.make (resolve : Resolver) (solve : Atoms → Atoms) (j : RelaxJob)
    (atoms : Atoms) : Summary × List Ev :=
  let swaps := j.swaps.getD []
  let flags := merge_dicts (relaxDefaults j.volume_relax) swaps true
  let a := SmartVasp resolve atoms j.preset flags
  let r := runCalcT solve a
  (summarize_run r.1 j.name, r.2)

/-- The cross-stage restart rule shared by `DoubleRelaxJob.make` and the
qmof `double_relax`: set `istart=0` on the second stage's calculator exactly
when the first stage resolved the trivial single-point grid `[1, 1, 1]` and
the second stage did not (`vasp_gam` to `vasp_std`); otherwise leave the
calculator untouched. -/
def restartGate (kpts1 : List Nat) (a2 : Atoms) : Atoms :=
  if kpts1 = [1, 1, 1] ∧ ¬ a2.kptsOf = [1, 1, 1] then
    a2.setDirective "istart" (Val.int 0)
  else a2

/-- The `DoubleRelaxJob` recipe descriptor (`src/quacc/recipes/vasp/core.py`). -/
structure DoubleRelaxJob where
  name : String
  preset : Option String
  volume_relax : Bool
  swaps1 : Option (List (String × Val))
  swaps2 : Option (List (String × Val))

/-- `DoubleRelaxJob.make` (`src/quacc/recipes/vasp/core.py`): run the first
relaxation, thread `summary1["atoms"]` into the second, read the resolved
sampling grid of each stage's calculator, and set `istart=0` on the second
calculator exactly when the first grid is `[1, 1, 1]` and the second is not. -/
def DoubleRelaxJob.make (resolve : Resolver) (solve : Atoms → Atoms)
    (j : DoubleRelaxJob) (atoms : Atoms) : (Summary × Summary) × List Ev :=
  let swaps1 := j.swaps1.getD []
  let swaps2 := j.swaps2.getD []
  let defaults := doubleRelaxDefaults j.volume_relax
  let flags1 := merge_dicts defaults swaps1 true
  let a1 := SmartVasp resolve atoms j.preset flags1
  let kpts1 := a1.kptsOf
  let r1 := runCalcT solve a1
  let summary1 := summarize_run r1.1 j.name
  let flags2 := merge_dicts defaults swaps2 true
  let a2 := SmartVasp resolve summary1.atoms j.preset flags2
  let a2b := restartGate kpts1 a2
  let r2 := runCalcT solve a2b
  ((summary1, summarize_run r2.1 j.name), r1.2 ++ r2.2)

/-- The fixed defaults of the qmof `prerelax` stage
(`src/quacc/recipes/vasp/qmof.py`); note the explicit-absence marker on
`encut`. -/
def prerelaxDefaults : List (String × Val) :=
  [("auto_kpts", Val.gridDensity 100), ("ediff", Val.float 1 4),
   ("encut", Val.none), ("lcharg", Val.bool false), ("lreal", Val.str "auto"),
   ("lwave", Val.bool true), ("nelm", Val.int 225), ("nsw", Val.int 0)]

/-- The fixed defaults of the qmof `loose_relax_positions` stage
(`src/quacc/recipes/vasp/qmof.py`). -/
def loosePositionsDefaults : List (String × Val) :=
  [("auto_kpts", Val.gridDensity 100), ("ediff", Val.float 1 4),
   ("ediffg", Val.float (-5) 2), ("encut", Val.none), ("isif", Val.int 2),
   ("lcharg", Val.bool false), ("lreal", Val.str "auto"),
   ("lwave", Val.bool true), ("nsw", Val.int 250)]

/-- The fixed defaults of the qmof `loose_relax_volume` stage
(`src/quacc/recipes/vasp/qmof.py`). -/
def looseVolumeDefaults : List (String × Val) :=
  [("auto_kpts", Val.gridDensity 100), ("isif", Val.int 3),
   ("lcharg", Val.bool false), ("lreal", Val.str "auto"),
   ("lwave", Val.bool true), ("nsw", Val.int 500)]

/-- The fixed defaults of the qmof production `double_relax` stage
(`src/quacc/recipes/vasp/qmof.py`). -/
def qmofDoubleRelaxDefaults (volume_relax : Bool) : List (String × Val) :=
  [("isif", Val.int (if volume_relax then 3 else 2)),
   ("lcharg", Val.bool false), ("lreal", Val.str "auto"),
   ("lwave", Val.bool true), ("nsw", Val.int (if volume_relax then 500 else 250))]

/-- The qmof `prerelax` stage (`src/quacc/recipes/vasp/qmof.py`): merge the
loose defaults with the swaps, attach the calculator, and drive the
BFGSLineSearch optimizer (`opt`, opaque) to `fmax`. -/
def prerelax (resolve : Resolver) (opt : Atoms → Rat → Atoms) (atoms : Atoms)
    (preset : Option String) (swaps : Option (List (String × Val)))
    (fmax : Rat) : Atoms × List Ev :=
  let swaps := swaps.getD []
  let flags := merge_dicts prerelaxDefaults swaps true
  let a := SmartVasp resolve atoms preset flags
  (opt a fmax, [Ev.enter "prerelax", Ev.solveBFGS a])

/-- The qmof `loose_relax_positions` stage (`src/quacc/recipes/vasp/qmof.py`). -/
def loose_relax_positions (resolve : Resolver) (solve : Atoms → Atoms)
    (atoms : Atoms) (preset : Option String)
    (swaps : Option (List (String × Val))) : Atoms × List Ev :=
  let swaps := swaps.getD []
  let flags := merge_dicts loosePositionsDefaults swaps true
  let a := SmartVasp resolve atoms preset flags
  let r := runCalcT solve a
  (r.1, Ev.enter "loose_relax_positions" :: r.2)

/-- The qmof `loose_relax_volume` stage (`src/quacc/recipes/vasp/qmof.py`). -/
def loose_relax_volume (resolve : Resolver) (solve : Atoms → Atoms)
    (atoms : Atoms) (preset : Option String)
    (swaps : Option (List (String × Val))) : Atoms × List Ev :=
  let swaps := swaps.getD []
  let flags := merge_dicts looseVolumeDefaults swaps true
  let a := SmartVasp resolve atoms preset flags
  let r := runCalcT solve a
  (r.1, Ev.enter "loose_relax_volume" :: r.2)

/-- The qmof production `double_relax` stage
(`src/quacc/recipes/vasp/qmof.py`): first sub-relaxation with the full
defaults, then `del defaults["lreal"]`, second sub-relaxation on the first
sub-relaxation's output, with `istart=0` forced exactly when the first
resolved grid is `[1, 1, 1]` and the second is not. -/
def double_relax (resolve : Resolver) (solve : Atoms → Atoms) (atoms : Atoms)
    (preset : Option String) (swaps : Option (List (String × Val)))
    (volume_relax : Bool) : Atoms × List Ev :=
  let swaps := swaps.getD []
  let defaults := qmofDoubleRelaxDefaults volume_relax
  let flags1 := merge_dicts defaults swaps true
  let a1 := SmartVasp resolve atoms preset flags1
  let kpts1 := a1.kptsOf
  let r1 := runCalcT solve a1
  let defaults2 := eraseEntry defaults "lreal"
  let flags2 := merge_dicts defaults2 swaps true
  let a2 := SmartVasp resolve r1.1 preset flags2
  let a2b := restartGate kpts1 a2
  let r2 := runCalcT solve a2b
  (r2.1, Ev.enter "double_relax" :: (r1.2 ++ r2.2))

/-- The `QMOFMaker` recipe descriptor (`src/quacc/recipes/vasp/qmof.py`). -/
structure QMOFMaker where
  name : String
  preset : Option String
  volume_relax : Bool
  swaps : Option (List (String × Val))

/-- `QMOFMaker.make` (`src/quacc/recipes/vasp/qmof.py`): the cascade
`prerelax` → `loose_relax_positions` → optional `loose_relax_volume` →
`double_relax` → `summarize_run`, threading each stage's returned structure
into the next stage. -/
def QMOFMaker.make (resolve : Resolver) (solve : Atoms → Atoms)
    (opt : Atoms → Rat → Atoms) (j : QMOFMaker) (atoms : Atoms) :
    Summary × List Ev :=
  let swaps := j.swaps.getD []
  let r1 := prerelax resolve opt atoms j.preset (Option.some swaps) 5
  let r2 := loose_relax_positions resolve solve r1.1 j.preset (Option.some swaps)
  let r3 := if j.volume_relax then
    loose_relax_volume resolve solve r2.1 j.preset (Option.some swaps)
    else (r2.1, [])
  let r4 := double_relax resolve solve r3.1 j.preset (Option.some swaps)
    j.volume_relax
  (summarize_run r4.1 j.name, r1.2 ++ r2.2 ++ r3.2 ++ r4.2)

/-- A filesystem state as `run_calc` sees it: the files of the original
working directory (name, content), the scratch subdirectories currently
under the scratch root (each a file list), and whether a reverse-link from
the original location to a scratch subdirectory is present. -/
structure FS where
  orig : List (String × String)
  scratchSubs : List (List (String × String))
  link : Bool
deriving DecidableEq

/-- Errors `run_calc` can surface: the configuration `ValueError` for a
missing calculator, or an exception propagated unmodified from the external
solver trigger. -/
inductive CalcErr where
  | noCalculator : CalcErr
  | solverFailure : String → CalcErr
deriving DecidableEq

/-- Filesystem-level events of one `run_calc` call, in occurrence order. -/
inductive FsEv where
  | raisedNoCalc : FsEv
  | createdScratch : FsEv
  | linked : FsEv
  | seeded : FsEv
  | solverCalled : FsEv
  | copiedBack : FsEv
  | gzipped : FsEv
  | unlinked : FsEv
  | removedScratch : FsEv
deriving DecidableEq

/-- The external solver as the wrapper sees it: from the structure and the
files of the scratch subdirectory (its working directory) to the files it
leaves behind and either the updated structure or the exception it raised.
Even when it raises, the files it had written by then are on disk. -/
def SolverFS : Type :=
  Atoms → List (String × String) → List (String × String) × Except String Atoms

/-- Gzip applied to one copied output file: the name gains the `.gz` suffix
(the content is treated opaquely). -/
def gzTransform (gz : Bool) (f : String × String) : String × String :=
  if gz then (f.1 ++ ".gz", f.2) else f

/-- Copy every resulting scratch file back into the original directory,
adding or updating but never deleting (`delete_removed_files=False`), after
the optional gzip rename. -/
def copyBackFiles (orig files : List (String × String)) (gz : Bool) :
    List (String × String) :=
  (files.map (gzTransform gz)).foldl (fun acc f => setEntry acc f.1 f.2) orig

/-- The destination names written by the copy-back step. -/
def writtenNames (files : List (String × String)) (gz : Bool) : List String :=
  (files.map (gzTransform gz)).map (fun f => f.1)

/-- The outcome of one `run_calc` call at the filesystem level. -/
structure RunOutcome where
  result : Except CalcErr Atoms
  fs : FS
  events : List FsEv
  written : List String

/-- `run_calc` (`src/quacc/util/calc.py`) at the filesystem level. The input
structure is value-copied (`deepcopy`); a missing calculator raises the
`ValueError` before anything touches the filesystem. Otherwise the
`ScratchDir`-scoped execution runs; `ScratchDir` itself (external, from
monty) is modelled from the spec's Scoped Execution Wrapper algorithm with
the flags `run_calc` passes: create a fresh scratch subdirectory, establish
the reverse-link, seed it from the original directory when
`copy_from_store_dir` is set, run the solver trigger inside it, then on
every exit path copy the resulting files back (gzip them when `gzip` is
set), retract the reverse-link, and remove the scratch subdirectory, never
deleting destination files. -/
def run_calc_fs (solver : SolverFS) (atoms : Atoms) (gzip copy_from_store_dir : Bool)
    (fs : FS) : RunOutcome :=
  match atoms.calcObj with
  | Option.none =>
    { result := Except.error CalcErr.noCalculator, fs := fs,
      events := [FsEv.raisedNoCalc], written := [] }
  | Option.some _ =>
    let seedFiles := if copy_from_store_dir then fs.orig else []
    let enterEvs := [FsEv.createdScratch, FsEv.linked] ++
      (if copy_from_store_dir then [FsEv.seeded] else [])
    let run := solver atoms seedFiles
    let exitEvs := [FsEv.copiedBack] ++ (if gzip then [FsEv.gzipped] else []) ++
      [FsEv.unlinked, FsEv.removedScratch]
    let fs2 : FS :=
      { orig := copyBackFiles fs.orig run.1 gzip,
        scratchSubs := fs.scratchSubs, link := false }
    let res : Except CalcErr Atoms :=
      match run.2 with
      | Except.ok a => Except.ok a
      | Except.error e => Except.error (CalcErr.solverFailure e)
    { result := res, fs := fs2,
      events := enterEvs ++ [FsEv.solverCalled] ++ exitEvs,
      written := writtenNames run.1 gzip }

/-- A store of structure objects addressed by reference, used to model
Python object identity and in-place mutation. -/
def Store : Type := List (Nat × Atoms)

/-- An upper bound on the references used in a store. -/
def maxRef : Store → Nat
  | [] => 0
  | p :: rest => max p.1 (maxRef rest)

/-- A reference not yet used in the store, as allocated by `deepcopy`. -/
def freshRef (s : Store) : Nat := maxRef s + 1

/-- `run_calc` (`src/quacc/util/calc.py`) at the object-store level, making
the `deepcopy` visible: the input reference's value is copied into a fresh
object, the missing-calculator check raises on the copy, and the solver
trigger (`mutate`, opaque: the net in-place effect of
`atoms.get_potential_energy()`) mutates only the fresh object, which is
returned. The caller's object is never written. -/
def run_calc_heap (mutate : Atoms → Atoms) (r : Nat) (s : Store) :
    Except CalcErr Nat × Store :=
  match lookupEntry s r with
  | Option.none => (Except.error CalcErr.noCalculator, s)
  | Option.some a =>
    match a.calcObj with
    | Option.none => (Except.error CalcErr.noCalculator, s)
    | Option.some _ =>
      let r2 := freshRef s
      (Except.ok r2, setEntry s r2 (mutate a))

theorem lookup_setEntry_self {κ α : Type} [DecidableEq κ] (d : List (κ × α))
    (k : κ) (v : α) : lookupEntry (setEntry d k v) k = Option.some v := by
  induction d with
  | nil => simp [setEntry, lookupEntry]
  | cons p rest ih =>
    by_cases hp : p.1 = k
    · simp [setEntry, lookupEntry, hp]
    · simp [setEntry, lookupEntry, hp, ih]

theorem lookup_setEntry_ne {κ α : Type} [DecidableEq κ] (d : List (κ × α))
    (j k : κ) (v : α) (h : ¬ j = k) :
    lookupEntry (setEntry d j v) k = lookupEntry d k := by
  induction d with
  | nil => simp [setEntry, lookupEntry, h]
  | cons p rest ih =>
    by_cases hp : p.1 = j
    · simp [setEntry, lookupEntry, hp, h]
    · simp only [setEntry, hp, if_false]
      by_cases hpk : p.1 = k
      · simp [lookupEntry, hpk]
      · simp [lookupEntry, hpk, ih]

theorem erase_setEntry_ne {κ α : Type} [DecidableEq κ] (d : List (κ × α))
    (j k : κ) (v : α) (h : ¬ j = k) :
    eraseEntry (setEntry d j v) k = setEntry (eraseEntry d k) j v := by
  induction d with
  | nil => simp [setEntry, eraseEntry, h]
  | cons p rest ih =>
    by_cases hpj : p.1 = j
    · have hpk : ¬ p.1 = k := by rw [hpj]; exact h
      simp [setEntry, eraseEntry, hpj, hpk, h]
    · have hs : setEntry (p :: rest) j v = p :: setEntry rest j v := by
        simp [setEntry, hpj]
      by_cases hpk : p.1 = k
      · have he1 : eraseEntry (p :: setEntry rest j v) k =
            eraseEntry (setEntry rest j v) k := by simp [eraseEntry, hpk]
        have he2 : eraseEntry (p :: rest) k = eraseEntry rest k := by
          simp [eraseEntry, hpk]
        rw [hs, he1, he2, ih]
      · have he1 : eraseEntry (p :: setEntry rest j v) k =
            p :: eraseEntry (setEntry rest j v) k := by simp [eraseEntry, hpk]
        have he2 : eraseEntry (p :: rest) k = p :: eraseEntry rest k := by
          simp [eraseEntry, hpk]
        have hs2 : setEntry (p :: eraseEntry rest k) j v =
            p :: setEntry (eraseEntry rest k) j v := by simp [setEntry, hpj]
        rw [hs, he1, he2, hs2, ih]

theorem erase_mergeTwo (d1 d2 : List (String × Val)) (k : String)
    (h : ∀ p ∈ d2, ¬ p.1 = k) :
    eraseEntry (mergeTwo d1 d2) k = mergeTwo (eraseEntry d1 k) d2 := by
  induction d2 generalizing d1 with
  | nil => simp [mergeTwo]
  | cons q rest ih =>
    have hq : ¬ q.1 = k := h q (List.mem_cons_self q rest)
    have hrest : ∀ p ∈ rest, ¬ p.1 = k := fun p hp =>
      h p (List.mem_cons_of_mem q hp)
    simp only [mergeTwo, List.foldl_cons] at ih ⊢
    rw [ih (setEntry d1 q.1 q.2) hrest, erase_setEntry_ne d1 q.1 k q.2 hq]

theorem lookup_mergeTwo_absent (d1 d2 : List (String × Val)) (k : String)
    (h : ∀ p ∈ d2, ¬ p.1 = k) :
    lookupEntry (mergeTwo d1 d2) k = lookupEntry d1 k := by
  induction d2 generalizing d1 with
  | nil => simp [mergeTwo]
  | cons q rest ih =>
    have hq : ¬ q.1 = k := h q (List.mem_cons_self q rest)
    have hrest : ∀ p ∈ rest, ¬ p.1 = k := fun p hp =>
      h p (List.mem_cons_of_mem q hp)
    simp only [mergeTwo, List.foldl_cons] at ih ⊢
    rw [ih (setEntry d1 q.1 q.2) hrest, lookup_setEntry_ne d1 q.1 k q.2 hq]

theorem lookup_dropNone_none (l : List (String × Val)) (k : String)
    (h : lookupEntry l k = Option.none) :
    lookupEntry (dropNone l) k = Option.none := by
  induction l with
  | nil => simp [dropNone, lookupEntry]
  | cons p rest ih =>
    by_cases hp : p.1 = k
    · simp [lookupEntry, hp] at h
    · simp only [lookupEntry, hp, if_false] at h
      by_cases hv : p.2 = Val.none
      · simp [dropNone, hv, ih h]
      · simp [dropNone, hv, lookupEntry, hp, ih h]

theorem lookup_dropNone_keep (l : List (String × Val)) (k : String) (v : Val)
    (h : lookupEntry l k = Option.some v) (hv : ¬ v = Val.none) :
    lookupEntry (dropNone l) k = Option.some v := by
  induction l with
  | nil => simp [lookupEntry] at h
  | cons p rest ih =>
    by_cases hp : p.1 = k
    · simp only [lookupEntry, hp, if_true] at h
      have h2 : p.2 = v := by injection h
      have hn : ¬ p.2 = Val.none := by rw [h2]; exact hv
      simp [dropNone, hn, hv, lookupEntry, hp, h2]
    · simp only [lookupEntry, hp, if_false] at h
      by_cases hn : p.2 = Val.none
      · simp [dropNone, hn, ih h]
      · simp [dropNone, hn, lookupEntry, hp, ih h]

theorem erase_dropNone_comm (l : List (String × Val)) (k : String) :
    eraseEntry (dropNone l) k = dropNone (eraseEntry l k) := by
  induction l with
  | nil => rfl
  | cons p rest ih =>
    by_cases hv : p.2 = Val.none <;> by_cases hp : p.1 = k <;>
      simp [dropNone, eraseEntry, hv, hp, ih]

theorem lookup_le_maxRef (s : Store) (r : Nat) (a : Atoms)
    (h : lookupEntry s r = Option.some a) : r ≤ maxRef s := by
  induction s with
  | nil => simp [lookupEntry] at h
  | cons p rest ih =>
    show r ≤ max p.1 (maxRef rest)
    by_cases hp : p.1 = r
    · exact le_trans (le_of_eq hp.symm) (le_max_left p.1 (maxRef rest))
    · simp only [lookupEntry, hp, if_false] at h
      exact le_trans (ih h) (le_max_right p.1 (maxRef rest))

theorem lookup_foldl_setEntry_unwritten {α : Type} (L : List (String × α))
    (orig : List (String × α)) (n : String) (h : ∀ f ∈ L, ¬ f.1 = n) :
    lookupEntry (L.foldl (fun acc f => setEntry acc f.1 f.2) orig) n =
      lookupEntry orig n := by
  induction L generalizing orig with
  | nil => rfl
  | cons f rest ih =>
    have hf : ¬ f.1 = n := h f (List.mem_cons_self f rest)
    have hrest : ∀ g ∈ rest, ¬ g.1 = n := fun g hg =>
      h g (List.mem_cons_of_mem f hg)
    simp only [List.foldl_cons]
    rw [ih (setEntry orig f.1 f.2) hrest, lookup_setEntry_ne orig f.1 n f.2 hf]

theorem erase_setEntry_self {κ α : Type} [DecidableEq κ] (d : List (κ × α))
    (k : κ) (v : α) : eraseEntry (setEntry d k v) k = eraseEntry d k := by
  induction d with
  | nil => simp [setEntry, eraseEntry]
  | cons p rest ih =>
    by_cases hp : p.1 = k
    · simp [setEntry, eraseEntry, hp]
    · simp [setEntry, eraseEntry, hp, ih]

theorem lookup_erase_self {κ α : Type} [DecidableEq κ] (d : List (κ × α))
    (k : κ) : lookupEntry (eraseEntry d k) k = Option.none := by
  induction d with
  | nil => rfl
  | cons p rest ih =>
    by_cases hp : p.1 = k
    · simp [eraseEntry, hp, ih]
    · simp [eraseEntry, lookupEntry, hp, ih]

theorem dropNone_eq_self (l : List (String × Val))
    (h : ∀ p ∈ l, ¬ p.2 = Val.none) : dropNone l = l := by
  induction l with
  | nil => rfl
  | cons p rest ih =>
    have hp := h p (List.mem_cons_self p rest)
    simp [dropNone, hp, ih (fun q hq => h q (List.mem_cons_of_mem p hq))]

theorem kptsOf_setDirective (a : Atoms) (k : String) (v : Val) :
    (a.setDirective k v).kptsOf = a.kptsOf := by
  cases hc : a.calcObj <;>
    simp [Atoms.setDirective, Atoms.kptsOf, Calc.setDirective, hc]

/-- C4: for the static recipe, merging the fixed defaults with the override
layer `{nedos: None}` under `remove_none=true` yields a resolved parameter
set that contains no `nedos` key and in which every other default key keeps
its default value. -/
theorem static_nedos_override_removed :
    merge_dicts staticDefaults [("nedos", Val.none)] true =
      [("ismear", Val.int (-5)), ("isym", Val.int 2), ("laechg", Val.bool true),
       ("lcharg", Val.bool true), ("lwave", Val.bool true),
       ("nsw", Val.int 0), ("sigma", Val.float 5 2)] ∧
    lookupEntry (merge_dicts staticDefaults [("nedos", Val.none)] true)
      "nedos" = Option.none := by
  constructor <;> rfl

/-- C9 counterexample: merging a defaults mapping with an empty override
layer does not always return the defaults verbatim — the qmof `prerelax`
recipe defaults carry the absence marker on `encut`, so with the
`remove_none=true` setting every recipe uses, the resolved flags drop
`encut` and differ from the defaults dictionary. -/
theorem merge_empty_overrides_not_verbatim :
    ¬ merge_dicts prerelaxDefaults [] true = prerelaxDefaults := by decide

/-- C9 (amended): merging defaults `D` with an empty override layer returns
`D` verbatim whenever `remove_none` is false or `D` contains no absence
markers; in particular the `StaticJob`, `RelaxJob` and `DoubleRelaxJob`
defaults, which contain no absence markers, resolve verbatim under the
`remove_none=true` setting those recipes use with `swaps=None`. -/
theorem merge_empty_overrides_verbatim (D : List (String × Val)) (rn : Bool)
    (h : rn = false ∨ ∀ p ∈ D, ¬ p.2 = Val.none) :
    merge_dicts D [] rn = D ∧
    merge_dicts staticDefaults [] true = staticDefaults ∧
    (∀ vr : Bool, merge_dicts (relaxDefaults vr) [] true = relaxDefaults vr) ∧
    (∀ vr : Bool,
      merge_dicts (doubleRelaxDefaults vr) [] true = doubleRelaxDefaults vr) := by
  refine ⟨?_, by decide, by decide, by decide⟩
  cases h with
  | inl h0 => rw [h0]; rfl
  | inr hall =>
    cases rn <;> simp [merge_dicts, mergeTwo, dropNone_eq_self D hall]

/-- C9 witness: the amended statement applied at the static-recipe defaults. -/
theorem merge_empty_overrides_verbatim_concrete :
    merge_dicts staticDefaults [] true = staticDefaults ∧
    merge_dicts staticDefaults [] true = staticDefaults ∧
    (∀ vr : Bool, merge_dicts (relaxDefaults vr) [] true = relaxDefaults vr) ∧
    (∀ vr : Bool,
      merge_dicts (doubleRelaxDefaults vr) [] true = doubleRelaxDefaults vr) :=
  merge_empty_overrides_verbatim staticDefaults true (Or.inr (by decide))

/-- C2: for every exit of the scratch-wrapped execution of `run_calc` —
solver success or solver exception — the cleanup actions run unconditionally
and in order (copy the resulting files back, gzip them when requested,
retract the reverse-link, remove the scratch subdirectory): afterwards the
scratch root holds no new scratch subdirectory, no reverse-link remains at
the original location, the original directory holds the copied-back files,
and the solver's verdict propagates unmodified. -/
theorem run_calc_cleanup_on_every_exit (solver : SolverFS) (atoms : Atoms)
    (gz seed : Bool) (fs : FS) (h : ¬ atoms.calcObj = Option.none) :
    (run_calc_fs solver atoms gz seed fs).fs.scratchSubs = fs.scratchSubs ∧
    (run_calc_fs solver atoms gz seed fs).fs.link = false ∧
    (run_calc_fs solver atoms gz seed fs).fs.orig =
      copyBackFiles fs.orig
        (solver atoms (if seed then fs.orig else [])).1 gz ∧
    (∃ pre, (run_calc_fs solver atoms gz seed fs).events =
      pre ++ [FsEv.copiedBack] ++ (if gz then [FsEv.gzipped] else []) ++
        [FsEv.unlinked, FsEv.removedScratch]) ∧
    (∀ e, (solver atoms (if seed then fs.orig else [])).2 = Except.error e →
      (run_calc_fs solver atoms gz seed fs).result =
        Except.error (CalcErr.solverFailure e)) ∧
    (∀ a2, (solver atoms (if seed then fs.orig else [])).2 = Except.ok a2 →
      (run_calc_fs solver atoms gz seed fs).result = Except.ok a2) := by
  obtain ⟨pl, co⟩ := atoms
  cases co with
  | none => exact absurd rfl h
  | some c =>
    refine ⟨rfl, rfl, rfl,
      ⟨[FsEv.createdScratch, FsEv.linked] ++
        (if seed then [FsEv.seeded] else []) ++ [FsEv.solverCalled], ?_⟩,
      ?_, ?_⟩
    · cases seed <;> cases gz <;> rfl
    · intro e he
      show (match (solver ⟨pl, Option.some c⟩
          (if seed then fs.orig else [])).2 with
        | Except.ok a => Except.ok a
        | Except.error e2 => Except.error (CalcErr.solverFailure e2)) =
          Except.error (CalcErr.solverFailure e)
      rw [he]
    · intro a2 ha
      show (match (solver ⟨pl, Option.some c⟩
          (if seed then fs.orig else [])).2 with
        | Except.ok a => Except.ok a
        | Except.error e2 => Except.error (CalcErr.solverFailure e2)) =
          Except.ok a2
      rw [ha]

/-- C2 witness: the cleanup theorem applied to a concrete solver that fails,
a structure with a calculator, and a one-file original directory. -/
theorem run_calc_cleanup_concrete :
    (run_calc_fs (fun _ _ => ([("OUTCAR", "out")], Except.error "boom"))
      ⟨0, Option.some ⟨Option.none, [], []⟩⟩ true false
      ⟨[("INCAR", "in")], [], false⟩).fs.scratchSubs =
        (⟨[("INCAR", "in")], [], false⟩ : FS).scratchSubs ∧
    (run_calc_fs (fun _ _ => ([("OUTCAR", "out")], Except.error "boom"))
      ⟨0, Option.some ⟨Option.none, [], []⟩⟩ true false
      ⟨[("INCAR", "in")], [], false⟩).fs.link = false ∧
    (run_calc_fs (fun _ _ => ([("OUTCAR", "out")], Except.error "boom"))
      ⟨0, Option.some ⟨Option.none, [], []⟩⟩ true false
      ⟨[("INCAR", "in")], [], false⟩).fs.orig =
      copyBackFiles [("INCAR", "in")]
        ((fun (_ : Atoms) (_ : List (String × String)) =>
          ([("OUTCAR", "out")], (Except.error "boom" : Except String Atoms)))
          ⟨0, Option.some ⟨Option.none, [], []⟩⟩
          (if false then [("INCAR", "in")] else [])).1 true ∧
    (∃ pre, (run_calc_fs (fun _ _ => ([("OUTCAR", "out")], Except.error "boom"))
      ⟨0, Option.some ⟨Option.none, [], []⟩⟩ true false
      ⟨[("INCAR", "in")], [], false⟩).events =
      pre ++ [FsEv.copiedBack] ++ (if true then [FsEv.gzipped] else []) ++
        [FsEv.unlinked, FsEv.removedScratch]) ∧
    (∀ e, ((fun (_ : Atoms) (_ : List (String × String)) =>
          ([("OUTCAR", "out")], (Except.error "boom" : Except String Atoms)))
          ⟨0, Option.some ⟨Option.none, [], []⟩⟩
          (if false then [("INCAR", "in")] else [])).2 = Except.error e →
      (run_calc_fs (fun _ _ => ([("OUTCAR", "out")], Except.error "boom"))
        ⟨0, Option.some ⟨Option.none, [], []⟩⟩ true false
        ⟨[("INCAR", "in")], [], false⟩).result =
          Except.error (CalcErr.solverFailure e)) ∧
    (∀ a2, ((fun (_ : Atoms) (_ : List (String × String)) =>
          ([("OUTCAR", "out")], (Except.error "boom" : Except String Atoms)))
          ⟨0, Option.some ⟨Option.none, [], []⟩⟩
          (if false then [("INCAR", "in")] else [])).2 = Except.ok a2 →
      (run_calc_fs (fun _ _ => ([("OUTCAR", "out")], Except.error "boom"))
        ⟨0, Option.some ⟨Option.none, [], []⟩⟩ true false
        ⟨[("INCAR", "in")], [], false⟩).result = Except.ok a2) :=
  run_calc_cleanup_on_every_exit
    (fun _ _ => ([("OUTCAR", "out")], Except.error "boom"))
    ⟨0, Option.some ⟨Option.none, [], []⟩⟩ true false
    ⟨[("INCAR", "in")], [], false⟩ (by simp)

/-- C3: when the input structure carries no calculator, `run_calc` raises
the configuration `ValueError` immediately — the filesystem is untouched, no
scratch directory is created, nothing is copied, and the solver trigger is
never invoked — and it neither fails silently nor retries (the solver is
triggered at most once on any path); when a calculator is attached, that
error is never raised. -/
theorem run_calc_missing_calculator_fails_fast (solver : SolverFS)
    (atoms : Atoms) (gz seed : Bool) (fs : FS) :
    (atoms.calcObj = Option.none →
      (run_calc_fs solver atoms gz seed fs).result =
        Except.error CalcErr.noCalculator ∧
      (run_calc_fs solver atoms gz seed fs).fs = fs ∧
      (run_calc_fs solver atoms gz seed fs).events = [FsEv.raisedNoCalc] ∧
      (run_calc_fs solver atoms gz seed fs).written = []) ∧
    ((run_calc_fs solver atoms gz seed fs).events.count FsEv.solverCalled ≤ 1) ∧
    (¬ atoms.calcObj = Option.none →
      ¬ (run_calc_fs solver atoms gz seed fs).result =
        Except.error CalcErr.noCalculator) := by
  obtain ⟨pl, co⟩ := atoms
  cases co with
  | none => exact ⟨fun _ => ⟨rfl, rfl, rfl, rfl⟩, by simp [run_calc_fs], fun hc => absurd rfl hc⟩
  | some c =>
    refine ⟨fun hc => absurd hc (by simp), ?_, ?_⟩
    · show (([FsEv.createdScratch, FsEv.linked] ++
        (if seed then [FsEv.seeded] else []) ++ [FsEv.solverCalled] ++
        ([FsEv.copiedBack] ++ (if gz then [FsEv.gzipped] else []) ++
          [FsEv.unlinked, FsEv.removedScratch]))).count FsEv.solverCalled ≤ 1
      cases seed <;> cases gz <;> decide
    · intro _ hres
      revert hres
      show ¬ (match (solver ⟨pl, Option.some c⟩
          (if seed then fs.orig else [])).2 with
        | Except.ok a => Except.ok a
        | Except.error e2 => Except.error (CalcErr.solverFailure e2)) =
          Except.error CalcErr.noCalculator
      cases (solver ⟨pl, Option.some c⟩ (if seed then fs.orig else [])).2 with
      | ok a => simp
      | error e => simp

/-- C3 witness: the fail-fast theorem applied to a structure without a
calculator over a concrete filesystem, discharging the two implications. -/
theorem run_calc_missing_calculator_concrete :
    ((⟨0, Option.none⟩ : Atoms).calcObj = Option.none →
      (run_calc_fs (fun a _ => ([], Except.ok a)) ⟨0, Option.none⟩ true true
        ⟨[("INCAR", "in")], [], false⟩).result =
        Except.error CalcErr.noCalculator ∧
      (run_calc_fs (fun a _ => ([], Except.ok a)) ⟨0, Option.none⟩ true true
        ⟨[("INCAR", "in")], [], false⟩).fs = ⟨[("INCAR", "in")], [], false⟩ ∧
      (run_calc_fs (fun a _ => ([], Except.ok a)) ⟨0, Option.none⟩ true true
        ⟨[("INCAR", "in")], [], false⟩).events = [FsEv.raisedNoCalc] ∧
      (run_calc_fs (fun a _ => ([], Except.ok a)) ⟨0, Option.none⟩ true true
        ⟨[("INCAR", "in")], [], false⟩).written = []) ∧
    ((run_calc_fs (fun a _ => ([], Except.ok a)) ⟨0, Option.none⟩ true true
        ⟨[("INCAR", "in")], [], false⟩).events.count FsEv.solverCalled ≤ 1) ∧
    (¬ (⟨0, Option.none⟩ : Atoms).calcObj = Option.none →
      ¬ (run_calc_fs (fun a _ => ([], Except.ok a)) ⟨0, Option.none⟩ true true
        ⟨[("INCAR", "in")], [], false⟩).result =
        Except.error CalcErr.noCalculator) :=
  run_calc_missing_calculator_fails_fast (fun a _ => ([], Except.ok a))
    ⟨0, Option.none⟩ true true ⟨[("INCAR", "in")], [], false⟩

/-- C8: `run_calc` never deletes a destination file on the basis of a
scratch-side deletion (`delete_removed_files=False`): every file present in
the original directory before execution whose name the run does not write is
still present with unchanged content afterwards. -/
theorem run_calc_never_deletes_destination (solver : SolverFS) (atoms : Atoms)
    (gz seed : Bool) (fs : FS) (n : String) (c : String)
    (h1 : lookupEntry fs.orig n = Option.some c)
    (h2 : ¬ n ∈ (run_calc_fs solver atoms gz seed fs).written) :
    lookupEntry (run_calc_fs solver atoms gz seed fs).fs.orig n =
      Option.some c := by
  obtain ⟨pl, co⟩ := atoms
  cases co with
  | none => exact h1
  | some cc =>
    show lookupEntry (copyBackFiles fs.orig
      (solver ⟨pl, Option.some cc⟩ (if seed then fs.orig else [])).1 gz) n =
        Option.some c
    rw [copyBackFiles,
      lookup_foldl_setEntry_unwritten _ fs.orig n ?_]
    · exact h1
    · intro f hf hfn
      apply h2
      show n ∈ writtenNames
        (solver ⟨pl, Option.some cc⟩ (if seed then fs.orig else [])).1 gz
      rw [writtenNames, ← hfn]
      exact List.mem_map_of_mem (fun g => g.1) hf

/-- C8 witness: the no-destination-delete theorem at a concrete run whose
solver deletes its seeded copy of `INCAR` and writes only `OUTCAR`: the
original `INCAR` survives unchanged. -/
theorem run_calc_never_deletes_concrete :
    lookupEntry (run_calc_fs
      (fun _ _ => ([("OUTCAR", "out")], Except.error "boom"))
      ⟨0, Option.some ⟨Option.none, [], []⟩⟩ true true
      ⟨[("INCAR", "in")], [], false⟩).fs.orig "INCAR" =
      Option.some "in" :=
  run_calc_never_deletes_destination
    (fun _ _ => ([("OUTCAR", "out")], Except.error "boom"))
    ⟨0, Option.some ⟨Option.none, [], []⟩⟩ true true
    ⟨[("INCAR", "in")], [], false⟩ "INCAR" "in" (by decide) (by decide)

/-- C5: `run_calc` is copy-on-call: the caller's structure object — its
positions/cell and its attached calculator — is bitwise identical after the
call, and on success the returned reference is a distinct fresh object
holding the solver-mutated copy. -/
theorem run_calc_copy_on_call (mutate : Atoms → Atoms) (r : Nat) (s : Store)
    (a : Atoms) (h : lookupEntry s r = Option.some a) :
    lookupEntry (run_calc_heap mutate r s).2 r = Option.some a ∧
    (a.calcObj = Option.none →
      run_calc_heap mutate r s = (Except.error CalcErr.noCalculator, s)) ∧
    (¬ a.calcObj = Option.none →
      ∃ r2, (run_calc_heap mutate r s).1 = Except.ok r2 ∧ ¬ r2 = r ∧
        lookupEntry (run_calc_heap mutate r s).2 r2 =
          Option.some (mutate a)) := by
  have hlt : r < freshRef s :=
    Nat.lt_succ_of_le (lookup_le_maxRef s r a h)
  have hne : ¬ freshRef s = r := fun he => absurd (he ▸ hlt) (lt_irrefl r)
  cases hc : a.calcObj with
  | none =>
    have hrun : run_calc_heap mutate r s =
        (Except.error CalcErr.noCalculator, s) := by
      simp [run_calc_heap, h, hc]
    exact ⟨by rw [hrun]; exact h, fun _ => hrun, fun hcc => absurd rfl hcc⟩
  | some cc =>
    have hrun : run_calc_heap mutate r s =
        (Except.ok (freshRef s), setEntry s (freshRef s) (mutate a)) := by
      simp [run_calc_heap, h, hc]
    refine ⟨?_, fun hn => absurd hn (by simp [hc]), fun _ =>
      ⟨freshRef s, by rw [hrun], hne, ?_⟩⟩
    · rw [hrun]
      show lookupEntry (setEntry s (freshRef s) (mutate a)) r = Option.some a
      rw [lookup_setEntry_ne s (freshRef s) r (mutate a) hne]
      exact h
    · rw [hrun]
      exact lookup_setEntry_self s (freshRef s) (mutate a)

/-- C5 witness: the copy-on-call theorem at a one-object store whose
structure carries a calculator and a mutation that moves the positions. -/
theorem run_calc_copy_on_call_concrete :
    lookupEntry (run_calc_heap (fun (a : Atoms) => (⟨a.payload + 1, a.calcObj⟩ : Atoms)) 0
      [(0, ⟨7, Option.some ⟨Option.none, [], []⟩⟩)]).2 0 =
      Option.some ⟨7, Option.some ⟨Option.none, [], []⟩⟩ ∧
    ((⟨7, Option.some ⟨Option.none, [], []⟩⟩ : Atoms).calcObj = Option.none →
      run_calc_heap (fun (a : Atoms) => (⟨a.payload + 1, a.calcObj⟩ : Atoms)) 0
        [(0, ⟨7, Option.some ⟨Option.none, [], []⟩⟩)] =
        (Except.error CalcErr.noCalculator,
          [(0, ⟨7, Option.some ⟨Option.none, [], []⟩⟩)])) ∧
    (¬ (⟨7, Option.some ⟨Option.none, [], []⟩⟩ : Atoms).calcObj =
        Option.none →
      ∃ r2 : Nat, (run_calc_heap (fun (a : Atoms) => (⟨a.payload + 1, a.calcObj⟩ : Atoms)) 0
        [(0, ⟨7, Option.some ⟨Option.none, [], []⟩⟩)]).1 = Except.ok r2 ∧
        ¬ r2 = 0 ∧
        lookupEntry (run_calc_heap (fun (a : Atoms) => (⟨a.payload + 1, a.calcObj⟩ : Atoms)) 0
          [(0, ⟨7, Option.some ⟨Option.none, [], []⟩⟩)]).2 r2 =
          Option.some ((fun (a : Atoms) => (⟨a.payload + 1, a.calcObj⟩ : Atoms))
            ⟨7, Option.some ⟨Option.none, [], []⟩⟩)) :=
  run_calc_copy_on_call (fun (a : Atoms) => (⟨a.payload + 1, a.calcObj⟩ : Atoms)) 0
    [(0, ⟨7, Option.some ⟨Option.none, [], []⟩⟩)]
    ⟨7, Option.some ⟨Option.none, [], []⟩⟩ (by decide)

theorem restartGate_kptsOf (k : List Nat) (a : Atoms) :
    (restartGate k a).kptsOf = a.kptsOf := by
  rw [restartGate]
  split
  · rw [kptsOf_setDirective]
  · rfl

theorem restartGate_pos (k : List Nat) (a : Atoms) (c : Calc)
    (hc : a.calcObj = Option.some c)
    (h : k = [1, 1, 1] ∧ ¬ a.kptsOf = [1, 1, 1]) :
    lookupEntry (restartGate k a).flagsOf "istart" =
      Option.some (Val.int 0) := by
  rw [restartGate, if_pos h]
  simp [Atoms.setDirective, Atoms.flagsOf, Calc.setDirective, hc,
    lookup_setEntry_self]

theorem restartGate_neg (k : List Nat) (a : Atoms)
    (h : ¬ (k = [1, 1, 1] ∧ ¬ a.kptsOf = [1, 1, 1])) :
    (restartGate k a).flagsOf = a.flagsOf := by
  rw [restartGate, if_neg h]

/-- C1: in both double-relaxation patterns (`DoubleRelaxJob.make` and the
qmof `double_relax`), when the first stage's resolved grid is the trivial
`[1, 1, 1]` and the second stage's resolved grid is not, the calculator
handed to the second solver execution carries `istart=0`; for every other
grid pair its directive mapping is exactly the merged stage-two flags, with
the restart directive untouched. -/
theorem double_relax_restart_directive (resolve : Resolver)
    (solve : Atoms → Atoms) (j : DoubleRelaxJob) (atoms : Atoms)
    (preset : Option String) (swaps : Option (List (String × Val)))
    (vr : Bool) :
    (∃ a1 a2,
      (DoubleRelaxJob.make resolve solve j atoms).2 =
        [Ev.solveVasp a1, Ev.solveVasp a2] ∧
      (a1.kptsOf = [1, 1, 1] ∧ ¬ a2.kptsOf = [1, 1, 1] →
        lookupEntry a2.flagsOf "istart" = Option.some (Val.int 0)) ∧
      (¬ (a1.kptsOf = [1, 1, 1] ∧ ¬ a2.kptsOf = [1, 1, 1]) →
        a2.flagsOf = merge_dicts (doubleRelaxDefaults j.volume_relax)
          (j.swaps2.getD []) true)) ∧
    (∃ b1 b2,
      (double_relax resolve solve atoms preset swaps vr).2 =
        [Ev.enter "double_relax", Ev.solveVasp b1, Ev.solveVasp b2] ∧
      (b1.kptsOf = [1, 1, 1] ∧ ¬ b2.kptsOf = [1, 1, 1] →
        lookupEntry b2.flagsOf "istart" = Option.some (Val.int 0)) ∧
      (¬ (b1.kptsOf = [1, 1, 1] ∧ ¬ b2.kptsOf = [1, 1, 1]) →
        b2.flagsOf = merge_dicts
          (eraseEntry (qmofDoubleRelaxDefaults vr) "lreal")
          (swaps.getD []) true)) := by
  constructor
  · refine ⟨_, _, rfl, ?_, ?_⟩
    · intro hcond
      rw [restartGate_kptsOf] at hcond
      exact restartGate_pos _ _ _ rfl hcond
    · intro hncond
      rw [restartGate_kptsOf] at hncond
      rw [restartGate_neg _ _ hncond]
      rfl
  · refine ⟨_, _, rfl, ?_, ?_⟩
    · intro hcond
      rw [restartGate_kptsOf] at hcond
      exact restartGate_pos _ _ _ rfl hcond
    · intro hncond
      rw [restartGate_kptsOf] at hncond
      rw [restartGate_neg _ _ hncond]
      rfl

theorem restartGate_payload (k : List Nat) (a : Atoms) :
    (restartGate k a).payload = a.payload := by
  rw [restartGate]
  split
  · rfl
  · rfl

/-- C6: every multi-stage recipe threads each stage's returned structure —
its positions/cell as updated by that stage's solver — into the next stage,
never the pre-relaxation input: `DoubleRelaxJob.make` feeds the first
relaxation's output into the second relaxation, and `QMOFMaker.make` (in
both its four- and five-stage shapes) hands each stage the previous stage's
output, starting from the original input at stage one. -/
theorem stage_output_threading (resolve : Resolver) (solve : Atoms → Atoms)
    (opt : Atoms → Rat → Atoms) (nm : String) (pr : Option String) (vr : Bool)
    (sw1 sw2 sw : Option (List (String × Val))) (atoms : Atoms) :
    (∃ a1 a2,
      (DoubleRelaxJob.make resolve solve ⟨nm, pr, vr, sw1, sw2⟩ atoms).2 =
        [Ev.solveVasp a1, Ev.solveVasp a2] ∧
      a1.payload = atoms.payload ∧ a2.payload = (solve a1).payload) ∧
    ((vr = true ∧ ∃ b1 b2 b3 b4 b5,
        (QMOFMaker.make resolve solve opt ⟨nm, pr, vr, sw⟩ atoms).2 =
          [Ev.enter "prerelax", Ev.solveBFGS b1,
           Ev.enter "loose_relax_positions", Ev.solveVasp b2,
           Ev.enter "loose_relax_volume", Ev.solveVasp b3,
           Ev.enter "double_relax", Ev.solveVasp b4, Ev.solveVasp b5] ∧
        b1.payload = atoms.payload ∧ b2.payload = (opt b1 5).payload ∧
        b3.payload = (solve b2).payload ∧ b4.payload = (solve b3).payload ∧
        b5.payload = (solve b4).payload) ∨
     (vr = false ∧ ∃ b1 b2 b4 b5,
        (QMOFMaker.make resolve solve opt ⟨nm, pr, vr, sw⟩ atoms).2 =
          [Ev.enter "prerelax", Ev.solveBFGS b1,
           Ev.enter "loose_relax_positions", Ev.solveVasp b2,
           Ev.enter "double_relax", Ev.solveVasp b4, Ev.solveVasp b5] ∧
        b1.payload = atoms.payload ∧ b2.payload = (opt b1 5).payload ∧
        b4.payload = (solve b2).payload ∧ b5.payload = (solve b4).payload)) := by
  constructor
  · refine ⟨_, _, rfl, rfl, ?_⟩
    rw [restartGate_payload]
    rfl
  · cases vr with
    | false =>
      refine Or.inr ⟨rfl, _, _, _, _, rfl, rfl, rfl, rfl, ?_⟩
      rw [restartGate_payload]
      rfl
    | true =>
      refine Or.inl ⟨rfl, _, _, _, _, _, rfl, rfl, rfl, rfl, rfl, ?_⟩
      rw [restartGate_payload]
      rfl

/-- Whether an event is a solver invocation (either the BFGSLineSearch
optimizer drive or a `run_calc` solver trigger). -/
def isSolveEv : Ev → Bool
  | Ev.enter _ => false
  | Ev.solveVasp _ => true
  | Ev.solveBFGS _ => true

/-- C7: with `volume_relax=false`, the `QMOFMaker.make` cascade executes
exactly 4 solver invocations — the BFGSLineSearch pre-relaxation, the loose
positions relaxation, and the two production sub-relaxations — and the
loose-volume stage function is never entered (no `loose_relax_volume` stage
event appears at all). -/
theorem qmof_skips_loose_volume (resolve : Resolver) (solve : Atoms → Atoms)
    (opt : Atoms → Rat → Atoms) (j : QMOFMaker) (atoms : Atoms)
    (h : j.volume_relax = false) :
    ((QMOFMaker.make resolve solve opt j atoms).2.filter isSolveEv).length
      = 4 ∧
    ¬ Ev.enter "loose_relax_volume" ∈
      (QMOFMaker.make resolve solve opt j atoms).2 ∧
    ∃ b1 b2 b3 b4, (QMOFMaker.make resolve solve opt j atoms).2 =
      [Ev.enter "prerelax", Ev.solveBFGS b1,
       Ev.enter "loose_relax_positions", Ev.solveVasp b2,
       Ev.enter "double_relax", Ev.solveVasp b3, Ev.solveVasp b4] := by
  obtain ⟨nm, pr, vr, sw⟩ := j
  change vr = false at h
  subst h
  have hex : ∃ b1 b2 b3 b4,
      (QMOFMaker.make resolve solve opt ⟨nm, pr, false, sw⟩ atoms).2 =
      [Ev.enter "prerelax", Ev.solveBFGS b1,
       Ev.enter "loose_relax_positions", Ev.solveVasp b2,
       Ev.enter "double_relax", Ev.solveVasp b3, Ev.solveVasp b4] :=
    ⟨_, _, _, _, rfl⟩
  obtain ⟨b1, b2, b3, b4, hev⟩ := hex
  refine ⟨rfl, ?_, b1, b2, b3, b4, hev⟩
  rw [hev]
  simp

/-- C7 witness: the skipped-volume-stage theorem at a concrete resolver,
solver, optimizer, job and structure. -/
theorem qmof_skips_loose_volume_concrete :
    ((QMOFMaker.make (fun _ _ _ => [1, 1, 1]) (fun a => a) (fun a _ => a)
      ⟨"QMOF-Relax", Option.none, false, Option.none⟩
      ⟨0, Option.none⟩).2.filter isSolveEv).length = 4 ∧
    ¬ Ev.enter "loose_relax_volume" ∈
      (QMOFMaker.make (fun _ _ _ => [1, 1, 1]) (fun a => a) (fun a _ => a)
        ⟨"QMOF-Relax", Option.none, false, Option.none⟩ ⟨0, Option.none⟩).2 ∧
    ∃ b1 b2 b3 b4, (QMOFMaker.make (fun _ _ _ => [1, 1, 1]) (fun a => a)
      (fun a _ => a) ⟨"QMOF-Relax", Option.none, false, Option.none⟩
      ⟨0, Option.none⟩).2 =
      [Ev.enter "prerelax", Ev.solveBFGS b1,
       Ev.enter "loose_relax_positions", Ev.solveVasp b2,
       Ev.enter "double_relax", Ev.solveVasp b3, Ev.solveVasp b4] :=
  qmof_skips_loose_volume (fun _ _ _ => [1, 1, 1]) (fun a => a)
    (fun a _ => a) ⟨"QMOF-Relax", Option.none, false, Option.none⟩
    ⟨0, Option.none⟩ rfl

theorem lookup_merge_true_keep (d1 d2 : List (String × Val)) (k : String)
    (v : Val) (h1 : lookupEntry d1 k = Option.some v)
    (h2 : ∀ p ∈ d2, ¬ p.1 = k) (hv : ¬ v = Val.none) :
    lookupEntry (merge_dicts d1 d2 true) k = Option.some v := by
  show lookupEntry (dropNone (mergeTwo d1 d2)) k = Option.some v
  refine lookup_dropNone_keep _ _ _ ?_ hv
  rw [lookup_mergeTwo_absent _ _ _ h2]
  exact h1

theorem lookup_merge_true_absent (d1 d2 : List (String × Val)) (k : String)
    (h1 : lookupEntry d1 k = Option.none) (h2 : ∀ p ∈ d2, ¬ p.1 = k) :
    lookupEntry (merge_dicts d1 d2 true) k = Option.none := by
  show lookupEntry (dropNone (mergeTwo d1 d2)) k = Option.none
  apply lookup_dropNone_none
  rw [lookup_mergeTwo_absent _ _ _ h2]
  exact h1

theorem erase_merge_true (d1 d2 : List (String × Val)) (k : String)
    (h : ∀ p ∈ d2, ¬ p.1 = k) :
    eraseEntry (merge_dicts d1 d2 true) k =
      merge_dicts (eraseEntry d1 k) d2 true := by
  show eraseEntry (dropNone (mergeTwo d1 d2)) k =
    dropNone (mergeTwo (eraseEntry d1 k) d2)
  rw [erase_dropNone_comm, erase_mergeTwo _ _ _ h]

/-- C10: in the qmof production `double_relax`, when the user swaps do not
set the real-space-projection flag, the first sub-stage's resolved flags
carry `lreal="auto"` while the second sub-stage's resolved flags omit
`lreal` entirely, and apart from `lreal` (and possibly the `istart` restart
directive forced by the cross-stage rule) the two sub-stages' directive
mappings are identical. -/
theorem qmof_double_relax_lreal_split (resolve : Resolver)
    (solve : Atoms → Atoms) (atoms : Atoms) (preset : Option String)
    (vr : Bool) (sw : List (String × Val))
    (hsw : ∀ p ∈ sw, ¬ p.1 = "lreal") :
    ∃ b1 b2,
      (double_relax resolve solve atoms preset (Option.some sw) vr).2 =
        [Ev.enter "double_relax", Ev.solveVasp b1, Ev.solveVasp b2] ∧
      lookupEntry b1.flagsOf "lreal" = Option.some (Val.str "auto") ∧
      lookupEntry b2.flagsOf "lreal" = Option.none ∧
      eraseEntry (eraseEntry b1.flagsOf "lreal") "istart" =
        eraseEntry b2.flagsOf "istart" := by
  refine ⟨_, _, rfl, ?_, ?_, ?_⟩
  · show lookupEntry (merge_dicts (qmofDoubleRelaxDefaults vr) sw true)
      "lreal" = Option.some (Val.str "auto")
    refine lookup_merge_true_keep _ _ _ _ ?_ hsw (by decide)
    cases vr <;> rfl
  · simp only [restartGate]
    split
    · show lookupEntry (setEntry
        (merge_dicts (eraseEntry (qmofDoubleRelaxDefaults vr) "lreal") sw
          true) "istart" (Val.int 0)) "lreal" = Option.none
      rw [lookup_setEntry_ne _ _ _ _ (by decide)]
      exact lookup_merge_true_absent _ _ _ (lookup_erase_self _ _) hsw
    · show lookupEntry
        (merge_dicts (eraseEntry (qmofDoubleRelaxDefaults vr) "lreal") sw
          true) "lreal" = Option.none
      exact lookup_merge_true_absent _ _ _ (lookup_erase_self _ _) hsw
  · simp only [restartGate]
    split
    · show eraseEntry (eraseEntry
          (merge_dicts (qmofDoubleRelaxDefaults vr) sw true) "lreal")
          "istart" =
        eraseEntry (setEntry
          (merge_dicts (eraseEntry (qmofDoubleRelaxDefaults vr) "lreal") sw
            true) "istart" (Val.int 0)) "istart"
      rw [erase_setEntry_self, erase_merge_true _ _ _ hsw]
    · show eraseEntry (eraseEntry
          (merge_dicts (qmofDoubleRelaxDefaults vr) sw true) "lreal")
          "istart" =
        eraseEntry
          (merge_dicts (eraseEntry (qmofDoubleRelaxDefaults vr) "lreal") sw
            true) "istart"
      rw [erase_merge_true _ _ _ hsw]

/-- C10 witness: the `lreal` split theorem at a concrete resolver, solver,
structure and empty swaps. -/
theorem qmof_double_relax_lreal_concrete :
    ∃ b1 b2,
      (double_relax (fun _ _ _ => [2, 2, 2]) (fun a => a) ⟨0, Option.none⟩
        Option.none (Option.some []) false).2 =
        [Ev.enter "double_relax", Ev.solveVasp b1, Ev.solveVasp b2] ∧
      lookupEntry b1.flagsOf "lreal" = Option.some (Val.str "auto") ∧
      lookupEntry b2.flagsOf "lreal" = Option.none ∧
      eraseEntry (eraseEntry b1.flagsOf "lreal") "istart" =
        eraseEntry b2.flagsOf "istart" :=
  qmof_double_relax_lreal_split (fun _ _ _ => [2, 2, 2]) (fun a => a)
    ⟨0, Option.none⟩ Option.none false [] (by simp)

end Quacc
